import Mathlib

/-!
Verification of the `store` CLI (src/main.rs).

The program has two pieces of logic: `parse_data_input`, which turns the
raw command-line data tokens into a single JSON value (single-token JSON
versus key=value mode), and the response-classification part of `run`,
which maps an HTTP status and response body to a success report or a
friendly error message.

The external crate serde_json is not part of this repository; its two
parsing entry points (`serde_json::from_str::<Value>` and
`serde_json::from_str::<ApiError>`) are modelled as abstract parameters
`parse : String → Option Json` and `parseApiError : String → Option ApiError`,
with `none` standing for a parse error.  Every theorem below is proved for
an arbitrary such parser, so it holds in particular for serde_json.
-/

namespace Store

/-- JSON-like values, modelling serde_json::Value.  Objects are kept as
association lists of fields: the source stores pairs in a HashMap (unordered,
insert overwrites), which the development models by insert-with-replacement
on the list, and the claims inspect objects only through per-key lookup.
Numbers are modelled as integers, which covers every numeral this
development evaluates. -/
inductive Json where
  | null
  | bool (b : Bool)
  | num (n : Int)
  | str (s : String)
  | arr (elems : List Json)
  | obj (fields : List (String × Json))

/-- Character-level core of Rust str::split_once: split a character list at
the first occurrence of c, returning the parts before and after it, or none
when c does not occur. -/
def splitOnceAux (c : Char) : List Char → Option (List Char × List Char)
  | [] => none
  | x :: xs =>
    if x = c then some ([], xs)
    else
      match splitOnceAux c xs with
      | some (a, b) => some (x :: a, b)
      | none => none

/-- Model of Rust str::split_once: split a string on the first occurrence of
the pattern character; the separator itself appears in neither part. -/
def split_once (s : String) (c : Char) : Option (String × String) :=
  match splitOnceAux c s.data with
  | some (a, b) => some (String.mk a, String.mk b)
  | none => none

/-- Insertion into the association-list model of the HashMap: overwrite the
value when the key is present, append the pair otherwise. -/
def insertKV : List (String × Json) → String → Json → List (String × Json)
  | [], k, v => [(k, v)]
  | (k₁, v₁) :: rest, k, v =>
    if k₁ = k then (k, v) :: rest else (k₁, v₁) :: insertKV rest k v

/-- Key lookup in the association-list model of a JSON object. -/
def kvLookup : List (String × Json) → String → Option Json
  | [], _ => none
  | (k₁, v₁) :: rest, k => if k₁ = k then some v₁ else kvLookup rest k

/-- An apostrophe, as a string. -/
def squote : String := String.singleton (Char.ofNat 39)

/-- The error message produced for a data token with no equals sign
(the anyhow context string in parse_data_input). -/
def kv_error_message (pair : String) : String :=
  "Invalid key=value pair: " ++ squote ++ pair ++ squote
    ++ ". Expected format: key=value"

/-- The key=value loop of parse_data_input: split each token on its first
equals sign, failing with kv_error_message when there is none; JSON-parse
the value half when possible, keep it as a plain string otherwise; insert
the pair into the accumulated map. -/
def parseKVPairs (parse : String → Option Json) :
    List String → List (String × Json) → Except String Json
  | [], map => Except.ok (Json.obj map)
  | pair :: rest, map =>
    match split_once pair '=' with
    | none => Except.error (kv_error_message pair)
    | some (key, value) =>
      let json_value : Json :=
        match parse value with
        | some v => v
        | none => Json.str value
      parseKVPairs parse rest (insertKV map key json_value)

/-- Model of parse_data_input from src/main.rs: a single token that parses
as JSON is returned directly; otherwise every token is treated as a
key=value pair. -/
def parse_data_input (parse : String → Option Json) (inputs : List String) :
    Except String Json :=
  match inputs with
  | [input] =>
    match parse input with
    | some json => Except.ok json
    | none => parseKVPairs parse [input] []
  | _ => parseKVPairs parse inputs []

/-- The value that the value half of a key=value token is mapped to: its
JSON parse when it is valid JSON, the plain string otherwise. -/
def jsonOrString (parse : String → Option Json) (value : String) : Json :=
  match parse value with
  | some v => v
  | none => Json.str value

/-- Specification-side helper: the result of splitting every token on its
first equals sign, defined only when every token has one. -/
def splitAll : List String → Option (List (String × String))
  | [] => some []
  | t :: rest =>
    match split_once t '=', splitAll rest with
    | some p, some ps => some (p :: ps)
    | _, _ => none

/-- One step of the key=value loop, seen as a fold over the already split
pairs: insert the mapped value of the pair into the accumulated object. -/
def kvStep (parse : String → Option Json) (map : List (String × Json))
    (p : String × String) : List (String × Json) :=
  insertKV map p.1 (jsonOrString parse p.2)

/-- Keys of the association-list model of a JSON object. -/
def keys (m : List (String × Json)) : List String := m.map Prod.fst

/-- Shape of an unsuccessful API response body, modelling the ApiError
struct of src/main.rs (both fields optional). -/
structure ApiError where
  detail : Option String
  message : Option String

/-- Result of one invocation after the HTTP response arrives: success with
the optionally surfaced response body, or failure with the error message. -/
inductive Outcome where
  | success (body : Option String)
  | failure (msg : String)

/-- The error_msg binding of run: parse the error body as ApiError; on
success take detail, else message, else the raw body; on a parse failure
use the raw body directly. -/
def error_msg (parseApiError : String → Option ApiError) (error_body : String) :
    String :=
  match parseApiError error_body with
  | some api_error => (api_error.detail.or api_error.message).getD error_body
  | none => error_body

/-- The friendly_status binding of run: the status-specific friendly error
message, built from the status code and the error message. -/
def friendly_status (status : Nat) (msg : String) : String :=
  if status = 401 then "Unauthorized - check your API token"
  else if status = 403 then
    "Forbidden - you don" ++ squote ++ "t have permission for this project"
  else if status = 404 then "Not found - check the API URL and project slug"
  else if status = 400 then "Bad request - " ++ msg
  else if status = 500 then "Server error - please try again later"
  else "HTTP " ++ toString status ++ " - " ++ msg

/-- Model of the response-classification tail of run (src/main.rs): a 2xx
status reports success and surfaces the body when it is non-empty and not
the literal string null; any other status fails with the friendly message
built by friendly_status from the error message built by error_msg. -/
def run_response (parseApiError : String → Option ApiError) (status : Nat)
    (body : String) : Outcome :=
  if 200 ≤ status ∧ status < 300 then
    Outcome.success (if body ≠ "" ∧ body ≠ "null" then some body else none)
  else
    Outcome.failure
      ("API request failed: " ++
        friendly_status status (error_msg parseApiError body))

/-- C1: a single input token that parses as valid JSON is returned exactly
as parsed, and is never reinterpreted as a key=value pair, whatever its
shape. -/
theorem single_json_token_returned (parse : String → Option Json)
    (tok : String) (v : Json) (h : parse tok = some v) :
    parse_data_input parse [tok] = Except.ok v := by
  simp [parse_data_input, h]

/-- Witness for single_json_token_returned at the token 42, which also
matches the key=value shape of no token but is valid JSON. -/
theorem single_json_token_returned_witness :
    parse_data_input (fun s => if s = "42" then some (Json.num 42) else none)
      ["42"] = Except.ok (Json.num 42) :=
  single_json_token_returned _ "42" (Json.num 42) rfl

/-- C9: on the empty token sequence parse_data_input does not fail: the
key=value loop runs over no tokens and returns the empty JSON object. -/
theorem empty_inputs_empty_object (parse : String → Option Json) :
    parse_data_input parse [] = Except.ok (Json.obj []) := rfl

/-- C3: statuses 401, 403, 404 and 500 always produce their fixed friendly
message, whatever the response body and however it parses. -/
theorem fixed_friendly_statuses (parseApiError : String → Option ApiError)
    (body : String) :
    run_response parseApiError 401 body =
      Outcome.failure
        ("API request failed: " ++ "Unauthorized - check your API token") ∧
    run_response parseApiError 403 body =
      Outcome.failure
        ("API request failed: " ++
          ("Forbidden - you don" ++ squote ++ "t have permission for this project")) ∧
    run_response parseApiError 404 body =
      Outcome.failure
        ("API request failed: " ++ "Not found - check the API URL and project slug") ∧
    run_response parseApiError 500 body =
      Outcome.failure
        ("API request failed: " ++ "Server error - please try again later") := by
  refine ⟨?_, ?_, ?_, ?_⟩ <;> simp [run_response, friendly_status]

/-- C8: every 2xx response succeeds, and the body is surfaced exactly when
it is non-empty and not the literal string null; in particular a 200
response with body null surfaces no body. -/
theorem success_response_surfaces_body (parseApiError : String → Option ApiError)
    (status : Nat) (body : String) (h₁ : 200 ≤ status) (h₂ : status < 300) :
    (∃ b, run_response parseApiError status body = Outcome.success b) ∧
    (run_response parseApiError status body = Outcome.success (some body) ↔
      body ≠ "" ∧ body ≠ "null") ∧
    run_response parseApiError 200 "null" = Outcome.success none := by
  have hs : 200 ≤ status ∧ status < 300 := ⟨h₁, h₂⟩
  refine ⟨?_, ?_, ?_⟩
  · exact ⟨_, by rw [run_response, if_pos hs]⟩
  · rw [run_response, if_pos hs]
    by_cases hc : body ≠ "" ∧ body ≠ "null"
    · rw [if_pos hc]
      simpa using hc
    · rw [if_neg hc]
      simpa using hc
  · simp [run_response]

/-- Witness for success_response_surfaces_body: a 200 response whose body
is the literal string null succeeds and surfaces nothing. -/
theorem success_response_surfaces_body_witness :
    run_response (fun _ => none) 200 "null" = Outcome.success none :=
  (success_response_surfaces_body (fun _ => none) 200 "null" (by decide)
    (by decide)).2.2

/-- C2: every non-2xx status other than 401, 403, 404 and 500 fails with a
message whose core is detail when present, else message when present, else
the raw body (also on a parse failure), prefixed with Bad request for
status 400 and with HTTP status otherwise. -/
theorem unlisted_status_error_message (parseApiError : String → Option ApiError)
    (status : Nat) (body : String) (h2xx : status < 200 ∨ 300 ≤ status)
    (h401 : status ≠ 401) (h403 : status ≠ 403) (h404 : status ≠ 404)
    (h500 : status ≠ 500) :
    run_response parseApiError status body =
      Outcome.failure ("API request failed: " ++
        (if status = 400 then "Bad request - "
          else "HTTP " ++ toString status ++ " - ") ++
        (match parseApiError body with
          | some e =>
            match e.detail with
            | some d => d
            | none =>
              match e.message with
              | some m => m
              | none => body
          | none => body)) := by
  have hn : ¬(200 ≤ status ∧ status < 300) := by
    rcases h2xx with h | h <;> omega
  have hmsg : error_msg parseApiError body =
      (match parseApiError body with
        | some e =>
          match e.detail with
          | some d => d
          | none =>
            match e.message with
            | some m => m
            | none => body
        | none => body) := by
    rw [error_msg]
    cases parseApiError body with
    | none => rfl
    | some e =>
      obtain ⟨det, msg⟩ := e
      cases det with
      | some d => rfl
      | none => cases msg with
        | some m => rfl
        | none => rfl
  rw [run_response, if_neg hn, hmsg, friendly_status,
    if_neg h401, if_neg h403, if_neg h404]
  by_cases h400 : status = 400
  · rw [if_pos h400, if_pos h400, String.append_assoc]
  · rw [if_neg h400, if_neg h400, if_neg h500]
    simp [String.append_assoc]

/-- Witness for unlisted_status_error_message: a 422 response with the
unparseable body oops fails with HTTP 422 - oops. -/
theorem unlisted_status_error_message_witness :
    run_response (fun _ => none) 422 "oops" =
      Outcome.failure "API request failed: HTTP 422 - oops" :=
  (unlisted_status_error_message (fun _ => none) 422 "oops"
    (Or.inr (by decide)) (by decide) (by decide) (by decide) (by decide)).trans
    (by rfl)

/-- Helper: the key=value loop fails with the error message naming the
first token that has no equals sign, whatever the accumulated map. -/
theorem parseKVPairs_error_first_bad (parse : String → Option Json) :
    ∀ (inputs : List String) (map : List (String × Json)) (bad : String),
      inputs.find? (fun t => (split_once t '=').isNone) = some bad →
      parseKVPairs parse inputs map = Except.error (kv_error_message bad) := by
  intro inputs
  induction inputs with
  | nil => intro map bad h; simp at h
  | cons t rest ih =>
    intro map bad h
    cases hs : split_once t '=' with
    | none =>
      rw [List.find?_cons_of_pos _ (by simp [hs])] at h
      injection h with h
      subst h
      simp [parseKVPairs, hs]
    | some p =>
      rw [List.find?_cons_of_neg _ (by simp [hs])] at h
      obtain ⟨key, value⟩ := p
      simp only [parseKVPairs, hs]
      exact ih _ _ h

/-- Helper: whenever the key=value loop succeeds, its result is a JSON
object. -/
theorem parseKVPairs_ok_obj (parse : String → Option Json) :
    ∀ (inputs : List String) (map : List (String × Json)) (v : Json),
      parseKVPairs parse inputs map = Except.ok v → ∃ m, v = Json.obj m := by
  intro inputs
  induction inputs with
  | nil =>
    intro map v h
    simp [parseKVPairs] at h
    exact ⟨map, h.symm⟩
  | cons t rest ih =>
    intro map v h
    cases hs : split_once t '=' with
    | none => simp [parseKVPairs, hs] at h
    | some p =>
      obtain ⟨key, value⟩ := p
      simp only [parseKVPairs, hs] at h
      exact ih _ _ h

/-- Helper: in key=value mode (no single token that parses as JSON),
parse_data_input is the key=value loop started on the empty map. -/
theorem parse_data_input_eq_parseKVPairs (parse : String → Option Json)
    (inputs : List String) (hkv : ∀ t, inputs = [t] → parse t = none) :
    parse_data_input parse inputs = parseKVPairs parse inputs [] := by
  rcases inputs with _ | ⟨t, _ | ⟨r, rs⟩⟩
  · rfl
  · simp [parse_data_input, hkv t rfl]
  · rfl

/-- C5: in key=value mode, whenever some token has no equals sign, the
parse fails with the InputFormatError message naming an offending token,
whatever the other tokens look like; tokens with an equals sign are split
on their first one. -/
theorem missing_equals_fails (parse : String → Option Json)
    (inputs : List String) (hkv : ∀ t, inputs = [t] → parse t = none)
    (hbad : ∃ t ∈ inputs, split_once t '=' = none) :
    ∃ bad ∈ inputs, split_once bad '=' = none ∧
      parse_data_input parse inputs = Except.error (kv_error_message bad) := by
  have hfind : (inputs.find? (fun t => (split_once t '=').isNone)).isSome :=
    List.find?_isSome.mpr (by
      rcases hbad with ⟨t, ht, hs⟩
      exact ⟨t, ht, by simp [hs]⟩)
  obtain ⟨bad, hfound⟩ := Option.isSome_iff_exists.mp hfind
  refine ⟨bad, List.mem_of_find?_eq_some hfound, ?_, ?_⟩
  · have hp := List.find?_some hfound
    simpa [Option.isNone_iff_eq_none] using hp
  · rw [parse_data_input_eq_parseKVPairs parse inputs hkv]
    exact parseKVPairs_error_first_bad parse inputs [] bad hfound

/-- Witness for missing_equals_fails: of two tokens the second has no
equals sign, and the parse fails naming it even though the first token is
well-formed. -/
theorem missing_equals_fails_witness :
    ∃ bad ∈ ["a=1", "b"], split_once bad '=' = none ∧
      parse_data_input (fun _ => none) ["a=1", "b"] =
        Except.error (kv_error_message bad) :=
  missing_equals_fails (fun _ => none) ["a=1", "b"]
    (by intro t h; simp at h) ⟨"b", by simp, rfl⟩

/-- C4: every successful parse is either the JSON parse of a single token
or a JSON object; a non-object result only arises from the single-token
JSON branch. -/
theorem result_shape (parse : String → Option Json) (inputs : List String)
    (v : Json) (h : parse_data_input parse inputs = Except.ok v) :
    (∃ t, inputs = [t] ∧ parse t = some v) ∨ ∃ m, v = Json.obj m := by
  rcases inputs with _ | ⟨t, _ | ⟨r, rs⟩⟩
  · exact Or.inr (parseKVPairs_ok_obj parse [] [] v h)
  · cases hp : parse t with
    | some j =>
      simp [parse_data_input, hp] at h
      exact Or.inl ⟨t, rfl, by rw [hp, h]⟩
    | none =>
      have h2 : parseKVPairs parse [t] [] = Except.ok v := by
        rw [← parse_data_input_eq_parseKVPairs parse [t]
          (by intro s hs; cases hs; exact hp)]
        exact h
      exact Or.inr (parseKVPairs_ok_obj parse [t] [] v h2)
  · exact Or.inr (parseKVPairs_ok_obj parse (t :: r :: rs) [] v h)

/-- Witness for result_shape: one token that is not valid JSON lands in the
object branch. -/
theorem result_shape_witness :
    (∃ t, ["a=1"] = [t] ∧
        (fun _ => (none : Option Json)) t =
          some (Json.obj [("a", Json.str "1")])) ∨
      ∃ m, Json.obj [("a", Json.str "1")] = Json.obj m :=
  result_shape (fun _ => none) ["a=1"] (Json.obj [("a", Json.str "1")]) rfl

/-- Helper: lookup after insertion: the inserted key maps to the new value
and every other key is unchanged. -/
theorem kvLookup_insertKV (m : List (String × Json)) (k q : String) (v : Json) :
    kvLookup (insertKV m k v) q = if k = q then some v else kvLookup m q := by
  induction m with
  | nil => rfl
  | cons a rest ih =>
    obtain ⟨k₁, v₁⟩ := a
    by_cases h₁ : k₁ = k
    · subst h₁
      simp only [insertKV, if_pos rfl, kvLookup]
      by_cases hq : k₁ = q
      · simp [hq]
      · simp [hq]
    · simp only [insertKV, if_neg h₁, kvLookup, ih]
      by_cases hq₁ : k₁ = q
      · by_cases hq₂ : k = q
        · exact absurd (hq₁.trans hq₂.symm) h₁
        · simp [hq₁, hq₂]
      · by_cases hq₂ : k = q
        · simp [hq₁, hq₂]
        · simp [hq₁, hq₂]

/-- Helper: the key=value loop over already split tokens is a fold of
kvStep over the accumulated map. -/
theorem parseKVPairs_eq_foldl (parse : String → Option Json) :
    ∀ (inputs : List String) (pairs : List (String × String))
      (map : List (String × Json)),
      splitAll inputs = some pairs →
      parseKVPairs parse inputs map =
        Except.ok (Json.obj (pairs.foldl (kvStep parse) map)) := by
  intro inputs
  induction inputs with
  | nil =>
    intro pairs map h
    simp [splitAll] at h
    subst h
    rfl
  | cons t rest ih =>
    intro pairs map h
    cases hs : split_once t '=' with
    | none => simp [splitAll, hs] at h
    | some p =>
      cases hr : splitAll rest with
      | none => simp [splitAll, hs, hr] at h
      | some ps =>
        simp only [splitAll, hs, hr] at h
        injection h with h
        subst h
        obtain ⟨key, value⟩ := p
        simp only [parseKVPairs, hs, List.foldl_cons]
        exact ih ps _ hr

/-- Helper: insertion rewrites the key list to itself when the key is
already present and appends the new key otherwise. -/
theorem keys_insertKV (m : List (String × Json)) (k : String) (v : Json) :
    keys (insertKV m k v) = if k ∈ keys m then keys m else keys m ++ [k] := by
  induction m with
  | nil => simp [insertKV, keys]
  | cons a rest ih =>
    obtain ⟨k₁, v₁⟩ := a
    by_cases h₁ : k₁ = k
    · subst h₁
      simp [insertKV, keys]
    · have hk : ¬k = k₁ := fun h => h₁ h.symm
      simp only [insertKV, if_neg h₁, keys, List.map_cons] at ih ⊢
      rw [ih]
      by_cases hm : k ∈ List.map Prod.fst rest
      · simp [hm, hk]
      · simp [hm, hk]

/-- Helper: insertion preserves distinctness of keys. -/
theorem keys_nodup_insertKV (m : List (String × Json)) (k : String) (v : Json)
    (h : (keys m).Nodup) : (keys (insertKV m k v)).Nodup := by
  rw [keys_insertKV]
  by_cases hm : k ∈ keys m
  · rwa [if_pos hm]
  · rw [if_neg hm, List.nodup_append]
    refine ⟨h, List.nodup_singleton k, ?_⟩
    intro a ha hak
    rw [List.mem_singleton] at hak
    exact hm (hak ▸ ha)

/-- Helper: the fold of kvStep preserves distinctness of keys. -/
theorem keys_nodup_foldl (parse : String → Option Json) :
    ∀ (pairs : List (String × String)) (map : List (String × Json)),
      (keys map).Nodup → (keys (pairs.foldl (kvStep parse) map)).Nodup := by
  intro pairs
  induction pairs with
  | nil => intro map h; exact h
  | cons p ps ih =>
    intro map h
    exact ih _ (keys_nodup_insertKV map p.1 (jsonOrString parse p.2) h)

/-- Helper: lookup in the folded map is the mapped value of the last split
pair carrying the looked-up key, falling back to the starting map. -/
theorem kvLookup_foldl (parse : String → Option Json) :
    ∀ (pairs : List (String × String)) (map : List (String × Json))
      (q : String),
      kvLookup (pairs.foldl (kvStep parse) map) q =
        match pairs.reverse.find? (fun p => p.1 == q) with
        | some p => some (jsonOrString parse p.2)
        | none => kvLookup map q := by
  intro pairs
  induction pairs with
  | nil => intro map q; rfl
  | cons p ps ih =>
    intro map q
    rw [List.foldl_cons, ih, List.reverse_cons, List.find?_append]
    cases hf : ps.reverse.find? (fun p => p.1 == q) with
    | some r => rfl
    | none =>
      by_cases hq : p.1 = q
      · rw [List.find?_cons_of_pos _ (by simp [hq])]
        simp only [kvStep, kvLookup_insertKV, if_pos hq, Option.none_or]
      · rw [List.find?_cons_of_neg _ (by simp [hq]), List.find?_nil]
        simp only [kvStep, kvLookup_insertKV, if_neg hq, Option.none_or]

/-- Helper: with distinct keys, membership of a pair is exactly a lookup
hit on its key. -/
theorem mem_iff_kvLookup (m : List (String × Json)) (k : String) (v : Json) :
    (keys m).Nodup → ((k, v) ∈ m ↔ kvLookup m k = some v) := by
  induction m with
  | nil => intro _; simp [kvLookup]
  | cons a rest ih =>
    intro hnd
    obtain ⟨k₁, v₁⟩ := a
    simp only [keys, List.map_cons, List.nodup_cons] at hnd
    obtain ⟨hk₁, hrest⟩ := hnd
    by_cases hq : k₁ = k
    · subst hq
      simp only [kvLookup, if_pos rfl, List.mem_cons]
      constructor
      · rintro (h | h)
        · injection h with h₂ h₃
          simp [h₃]
        · exact absurd (List.mem_map_of_mem Prod.fst h) hk₁
      · intro h
        injection h with h
        exact Or.inl (by rw [h])
    · simp only [kvLookup, if_neg hq, List.mem_cons]
      rw [← ih hrest]
      constructor
      · rintro (h | h)
        · injection h with h₂ h₃
          exact absurd h₂.symm hq
        · exact h
      · exact Or.inr

/-- Helper: a lookup hit is exactly membership of the looked-up key. -/
theorem kvLookup_isSome_iff (m : List (String × Json)) (k : String) :
    (kvLookup m k).isSome ↔ k ∈ keys m := by
  induction m with
  | nil => simp [kvLookup, keys]
  | cons a rest ih =>
    obtain ⟨k₁, v₁⟩ := a
    by_cases hq : k₁ = k
    · subst hq
      simp [kvLookup, keys]
    · have hk : ¬k = k₁ := fun h => hq h.symm
      simp [kvLookup, hq, keys, hk] at ih ⊢
      exact ih

/-- C7: in key=value mode the value recorded for a key is the mapped value
half of its last occurrence in the input order. -/
theorem duplicate_keys_last_wins (parse : String → Option Json)
    (inputs : List String) (pairs : List (String × String)) (k : String)
    (hkv : ∀ t, inputs = [t] → parse t = none)
    (hsplit : splitAll inputs = some pairs) :
    ∃ m, parse_data_input parse inputs = Except.ok (Json.obj m) ∧
      kvLookup m k =
        (pairs.reverse.find? (fun p => p.1 == k)).map
          (fun p => jsonOrString parse p.2) := by
  refine ⟨pairs.foldl (kvStep parse) [], ?_, ?_⟩
  · rw [parse_data_input_eq_parseKVPairs parse inputs hkv]
    exact parseKVPairs_eq_foldl parse inputs pairs [] hsplit
  · rw [kvLookup_foldl]
    cases hf : pairs.reverse.find? (fun p => p.1 == k) with
    | some r => rfl
    | none => rfl

/-- Witness for duplicate_keys_last_wins: in a=1 a=2 the key a ends up
bound to the value of the later token, 2. -/
theorem duplicate_keys_last_wins_witness :
    ∃ m, parse_data_input
        (fun s => if s = "1" then some (Json.num 1)
          else if s = "2" then some (Json.num 2) else none)
        ["a=1", "a=2"] = Except.ok (Json.obj m) ∧
      kvLookup m "a" =
        ([("a", "1"), ("a", "2")].reverse.find? (fun p => p.1 == "a")).map
          (fun p => jsonOrString
            (fun s => if s = "1" then some (Json.num 1)
              else if s = "2" then some (Json.num 2) else none) p.2) :=
  duplicate_keys_last_wins _ ["a=1", "a=2"] [("a", "1"), ("a", "2")] "a"
    (by intro t h; simp at h) rfl

/-- C6: with more than one token, all of key=value form, the result is an
object with pairwise distinct keys, whose keys are exactly the token keys
and whose values are value halves mapped by JSON-parse-or-plain-string. -/
theorem kv_mode_builds_object (parse : String → Option Json)
    (inputs : List String) (pairs : List (String × String))
    (hlen : 2 ≤ inputs.length) (hsplit : splitAll inputs = some pairs) :
    ∃ m, parse_data_input parse inputs = Except.ok (Json.obj m) ∧
      (keys m).Nodup ∧
      (∀ k, (∃ v, (k, v) ∈ m) ↔ ∃ w, (k, w) ∈ pairs) ∧
      ∀ k v, (k, v) ∈ m → ∃ w, (k, w) ∈ pairs ∧ v = jsonOrString parse w := by
  have hkv : ∀ t, inputs = [t] → parse t = none := by
    intro t ht
    subst ht
    simp at hlen
  have hnd : (keys (pairs.foldl (kvStep parse) [])).Nodup :=
    keys_nodup_foldl parse pairs [] (by simp [keys])
  have hlook : ∀ q, kvLookup (pairs.foldl (kvStep parse) []) q =
      (pairs.reverse.find? (fun p => p.1 == q)).map
        (fun p => jsonOrString parse p.2) := by
    intro q
    rw [kvLookup_foldl]
    cases hf : pairs.reverse.find? (fun p => p.1 == q) with
    | some r => rfl
    | none => rfl
  refine ⟨pairs.foldl (kvStep parse) [], ?_, hnd, ?_, ?_⟩
  · rw [parse_data_input_eq_parseKVPairs parse inputs hkv]
    exact parseKVPairs_eq_foldl parse inputs pairs [] hsplit
  · intro k
    constructor
    · rintro ⟨v, hv⟩
      have hl := (mem_iff_kvLookup _ k v hnd).mp hv
      rw [hlook] at hl
      cases hf : pairs.reverse.find? (fun p => p.1 == k) with
      | none => rw [hf] at hl; simp at hl
      | some r =>
        have hr1 : r.1 = k := by simpa using List.find?_some hf
        have hmem : r ∈ pairs :=
          List.mem_reverse.mp (List.mem_of_find?_eq_some hf)
        exact ⟨r.2, by rw [← hr1]; exact hmem⟩
    · rintro ⟨w, hw⟩
      have hfind : (pairs.reverse.find? (fun p => p.1 == k)).isSome :=
        List.find?_isSome.mpr ⟨(k, w), List.mem_reverse.mpr hw, by simp⟩
      obtain ⟨r, hf⟩ := Option.isSome_iff_exists.mp hfind
      refine ⟨jsonOrString parse r.2, ?_⟩
      rw [mem_iff_kvLookup _ _ _ hnd, hlook, hf]
      rfl
  · intro k v hv
    have hl := (mem_iff_kvLookup _ k v hnd).mp hv
    rw [hlook] at hl
    cases hf : pairs.reverse.find? (fun p => p.1 == k) with
    | none => rw [hf] at hl; simp at hl
    | some r =>
      rw [hf] at hl
      have hr1 : r.1 = k := by simpa using List.find?_some hf
      have hmem : r ∈ pairs :=
        List.mem_reverse.mp (List.mem_of_find?_eq_some hf)
      refine ⟨r.2, by rw [← hr1]; exact hmem, ?_⟩
      simpa using hl.symm

/-- Witness for kv_mode_builds_object at the spec example a=1 b=hello,
where 1 is valid JSON and hello is not. -/
theorem kv_mode_builds_object_witness :
    ∃ m, parse_data_input
        (fun s => if s = "1" then some (Json.num 1) else none)
        ["a=1", "b=hello"] = Except.ok (Json.obj m) ∧
      (keys m).Nodup ∧
      (∀ k, (∃ v, (k, v) ∈ m) ↔ ∃ w, (k, w) ∈ [("a", "1"), ("b", "hello")]) ∧
      ∀ k v, (k, v) ∈ m → ∃ w, (k, w) ∈ [("a", "1"), ("b", "hello")] ∧
        v = jsonOrString (fun s => if s = "1" then some (Json.num 1) else none) w :=
  kv_mode_builds_object _ ["a=1", "b=hello"] [("a", "1"), ("b", "hello")]
    (by decide) rfl

/-- Helper: a token starting with the separator splits into an empty key
and the rest of the token. -/
theorem split_once_starts_with_sep (v : String) :
    split_once ("=" ++ v) '=' = some ("", v) := by
  rw [split_once, String.data_append]
  show (match splitOnceAux '=' ('=' :: v.data) with
    | some (a, b) => some (String.mk a, String.mk b)
    | none => none) = some ("", v)
  rw [splitOnceAux, if_pos rfl]

/-- Helper: a token whose only separator is its last character splits into
the front part and an empty value. -/
theorem splitOnceAux_no_sep_then_sep (k : List Char) (hk : '=' ∉ k) :
    splitOnceAux '=' (k ++ ['=']) = some (k, []) := by
  induction k with
  | nil => rw [List.nil_append, splitOnceAux, if_pos rfl]
  | cons c cs ih =>
    rw [List.mem_cons] at hk
    push_neg at hk
    obtain ⟨h₁, h₂⟩ := hk
    rw [List.cons_append, splitOnceAux, if_neg (fun h => h₁ h.symm),
      ih h₂]

/-- Helper: a token ending with the separator, with none earlier, splits
into the front part and an empty value. -/
theorem split_once_ends_with_sep (k : String) (hk : '=' ∉ k.data) :
    split_once (k ++ "=") '=' = some (k, "") := by
  rw [split_once, String.data_append]
  show (match splitOnceAux '=' (k.data ++ ['=']) with
    | some (a, b) => some (String.mk a, String.mk b)
    | none => none) = some (k, "")
  rw [splitOnceAux_no_sep_then_sep k.data hk]

/-- C10: in key=value mode empty halves are accepted: a token beginning
with an equals sign yields an entry with the empty string as key, and a
token with a single trailing equals sign yields an entry whose value is
the empty JSON string, since the empty string is not valid JSON. -/
theorem empty_halves_accepted (parse : String → Option Json) (k v : String)
    (hk : '=' ∉ k.data) (hp₁ : parse ("=" ++ v) = none)
    (hp₂ : parse (k ++ "=") = none) (hempty : parse "" = none) :
    parse_data_input parse ["=" ++ v] =
        Except.ok (Json.obj [("", jsonOrString parse v)]) ∧
      parse_data_input parse [k ++ "="] =
        Except.ok (Json.obj [(k, Json.str "")]) := by
  constructor
  · rw [parse_data_input_eq_parseKVPairs parse _
      (by intro t ht; injection ht with ht; rw [← ht]; exact hp₁)]
    simp only [parseKVPairs, split_once_starts_with_sep, insertKV,
      jsonOrString]
  · rw [parse_data_input_eq_parseKVPairs parse _
      (by intro t ht; injection ht with ht; rw [← ht]; exact hp₂)]
    simp only [parseKVPairs, split_once_ends_with_sep k hk, insertKV,
      hempty]

/-- Witness for empty_halves_accepted at the tokens =v and k=. -/
theorem empty_halves_accepted_witness :
    parse_data_input (fun _ => none) ["=" ++ "v"] =
        Except.ok (Json.obj [("", jsonOrString (fun _ => none) "v")]) ∧
      parse_data_input (fun _ => none) ["k" ++ "="] =
        Except.ok (Json.obj [("k", Json.str "")]) :=
  empty_halves_accepted (fun _ => none) "k" "v" (by decide) rfl rfl rfl

end Store
